import Mathlib

/-
Verification of the `SocialLogin` login-session state machine from
`allauth/socialaccount/models.py` (django-allauth, socialaccount subsystem).

The embedding is a shallow one: Django model instances become Lean records,
the credential store (ORM) becomes an explicit `Store` value threaded through
the operations, and methods that mutate `self` / the store become pure
functions returning the updated values.  Python `assert` failures and
`PermissionDenied` become the error type `Err` (`Except Err _`), and the
ORM `DoesNotExist` conditions are handled internally (they never escape,
matching the source's try/except blocks).  The per-request session store is
modelled by its single `socialaccount_state` slot (`Session`); operations
that mutate the session and may also raise return the new session alongside
an `Except` result, so that a pop that happens before a raise is visible.
-/

namespace Allauth

/-- A local user record (`User` model): a store-assigned primary key once
saved, plus an identifying payload. -/
structure User where
  pk : Option Nat
  username : String
  deriving DecidableEq, Repr

/-- `SocialAccount` model: a linked identity, unique per (provider, uid),
owning one local user and an opaque provider-supplied profile payload
(`extra_data`, a JSON dict modelled as an association list). -/
structure SocialAccount where
  pk : Option Nat
  user : User
  provider : String
  uid : String
  extra_data : List (String × String)
  deriving DecidableEq, Repr

/-- `SocialToken` model: credential material for one (app, account) pair.
`account` is the foreign key; it is `none` while the token is not yet bound
to an account.  `token` is the access token, `token_secret` the optional
refresh token / secret, `expires_at` the optional expiry. -/
structure SocialToken where
  pk : Option Nat
  app : Nat
  account : Option SocialAccount
  token : String
  token_secret : String
  expires_at : Option Nat
  deriving DecidableEq, Repr

/-- `EmailAddress` record retrieved from the provider. -/
structure EmailAddress where
  email : String
  verified : Bool
  deriving DecidableEq, Repr

/-- The `state` dict of a login session (redirect target, process kind,
scope, auth params). -/
abbrev StateMap := List (String × String)

/-- `SocialLogin`: the in-memory representation of one handshake. -/
structure SocialLogin where
  user : User
  account : SocialAccount
  token : Option SocialToken
  email_addresses : List EmailAddress
  state : StateMap
  deriving DecidableEq, Repr

/-- Error taxonomy of the subsystem.  `assertionError` models a failing
Python `assert` (programming error), `accessDenied` models
`django.core.exceptions.PermissionDenied`, and `notFound` models the ORM
`DoesNotExist` class — included for the taxonomy, though the `SocialLogin`
code catches every `DoesNotExist` internally and never surfaces it. -/
inductive Err where
  | assertionError
  | accessDenied
  | notFound
  deriving DecidableEq, Repr

/-- The credential store: persisted users, accounts and tokens, plus a
fresh-primary-key counter. -/
structure Store where
  users : List User
  accounts : List SocialAccount
  tokens : List SocialToken
  nextPk : Nat
  deriving DecidableEq, Repr

/-- `user.save()`: insert with a fresh primary key when unsaved, otherwise
update the row with the matching primary key (insert if the row vanished,
mirroring Django's update-or-insert save). -/
def Store.saveUser (st : Store) (u : User) : Store × User :=
  match u.pk with
  | none =>
    let u' := { u with pk := some st.nextPk }
    ({ st with users := st.users ++ [u'], nextPk := st.nextPk + 1 }, u')
  | some _ =>
    if st.users.any (fun x => x.pk == u.pk) then
      ({ st with users := st.users.map (fun x => if x.pk == u.pk then u else x) }, u)
    else
      ({ st with users := st.users ++ [u] }, u)

/-- `account.save()`: same save semantics as `Store.saveUser`. -/
def Store.saveAccount (st : Store) (a : SocialAccount) : Store × SocialAccount :=
  match a.pk with
  | none =>
    let a' := { a with pk := some st.nextPk }
    ({ st with accounts := st.accounts ++ [a'], nextPk := st.nextPk + 1 }, a')
  | some _ =>
    if st.accounts.any (fun x => x.pk == a.pk) then
      ({ st with accounts := st.accounts.map (fun x => if x.pk == a.pk then a else x) }, a)
    else
      ({ st with accounts := st.accounts ++ [a] }, a)

/-- `token.save()`: same save semantics as `Store.saveUser`. -/
def Store.saveToken (st : Store) (t : SocialToken) : Store × SocialToken :=
  match t.pk with
  | none =>
    let t' := { t with pk := some st.nextPk }
    ({ st with tokens := st.tokens ++ [t'], nextPk := st.nextPk + 1 }, t')
  | some _ =>
    if st.tokens.any (fun x => x.pk == t.pk) then
      ({ st with tokens := st.tokens.map (fun x => if x.pk == t.pk then t else x) }, t)
    else
      ({ st with tokens := st.tokens ++ [t] }, t)

/-- `SocialAccount.objects.get(provider=..., uid=...)`: lookup by the
(provider, uid) uniqueness key; `none` models `DoesNotExist`. -/
def Store.getAccount (st : Store) (provider uid : String) : Option SocialAccount :=
  st.accounts.find? (fun a => a.provider == provider && a.uid == uid)

/-- The stored foreign-key id of a token's account. -/
def SocialToken.accountId (t : SocialToken) : Option Nat :=
  t.account.bind SocialAccount.pk

/-- `SocialToken.objects.get(account=..., app=...)`: lookup by the
(app, account) uniqueness key (foreign keys compare by primary key);
`none` models `DoesNotExist`. -/
def Store.getToken (st : Store) (accountPk : Option Nat) (app : Nat) : Option SocialToken :=
  st.tokens.find? (fun t => t.accountId == accountPk && t.app == app)

/-- `SocialLogin.is_existing`: whether the candidate account is already
backed by a store record (has a store-assigned primary key). -/
def SocialLogin.is_existing (l : SocialLogin) : Bool :=
  l.account.pk.isSome

/-- `SocialLogin.__init__`: builds a fresh session with empty state, after
asserting that a supplied token is not pre-bound to a different account
(`token.account is None or token.account == account`). -/
def SocialLogin.init (user : User) (account : SocialAccount)
    (token : Option SocialToken) (email_addresses : List EmailAddress) :
    Except Err SocialLogin :=
  match token with
  | some t =>
    if t.account = none ∨ t.account = some account then
      .ok { user := user, account := account, token := some t,
            email_addresses := email_addresses, state := [] }
    else
      .error .assertionError
  | none =>
    .ok { user := user, account := account, token := none,
          email_addresses := email_addresses, state := [] }

/-- `SocialLogin.lookup`: reconcile the session against the store.
`storeTokens` is `app_settings.STORE_TOKENS`.  Mirrors the source: assert
not existing; fetch the stored account by (provider, uid); on a hit, adopt
it with the candidate's fresh `extra_data`, rebind the user, save; then,
with token storage on and a candidate token present, assert the candidate
token is unsaved and either update the stored (account, app) token —
refresh secret only when the candidate's is non-empty — or bind and insert
the candidate token; on a miss, change nothing. -/
def SocialLogin.lookup (storeTokens : Bool) (st : Store) (l : SocialLogin) :
    Except Err (Store × SocialLogin) :=
  if l.is_existing then .error .assertionError else
  match st.getAccount l.account.provider l.account.uid with
  | none => .ok (st, l)
  | some a0 =>
    let a := { a0 with extra_data := l.account.extra_data }
    let l1 := { l with account := a, user := a.user }
    let st1 := (st.saveAccount a).1
    if storeTokens then
      match l1.token with
      | none => .ok (st1, l1)
      | some tok =>
        if tok.pk.isSome then .error .assertionError else
        match st1.getToken a.pk tok.app with
        | some t0 =>
          let t := { t0 with
                     token := tok.token,
                     token_secret :=
                       if tok.token_secret ≠ "" then tok.token_secret else t0.token_secret,
                     expires_at := tok.expires_at }
          let st2 := (st1.saveToken t).1
          .ok (st2, { l1 with token := some t })
        | none =>
          let t := { tok with account := some a }
          let r := st1.saveToken t
          .ok (r.1, { l1 with token := some r.2 })
    else .ok (st1, l1)

/-- Result of `SocialLogin.save`: the updated store and session, plus the
call made to the external `setup_user_email` collaborator (`none` when the
email-setup step was skipped). -/
structure SaveResult where
  store : Store
  login : SocialLogin
  emailSetup : Option (User × List EmailAddress)
  deriving DecidableEq, Repr

/-- `SocialLogin.save`: commit the session.  Asserts the session is not
already existing, then persists the user, the account bound to that user,
and — when token storage is on and a token is present — the token bound to
the saved account; with `connect` the email-setup step is a no-op,
otherwise `setup_user_email(request, user, email_addresses)` is called. -/
def SocialLogin.save (storeTokens connect : Bool) (st : Store) (l : SocialLogin) :
    Except Err SaveResult :=
  if l.is_existing then .error .assertionError else
  let r1 := st.saveUser l.user
  let acc := { l.account with user := r1.2 }
  let r2 := r1.1.saveAccount acc
  let r3 : Store × Option SocialToken :=
    match l.token with
    | some tok =>
      if storeTokens then
        let rt := r2.1.saveToken { tok with account := some r2.2 }
        (rt.1, some rt.2)
      else (r2.1, some tok)
    | none => (r2.1, none)
  let l' := { l with user := r1.2, account := r2.2, token := r3.2 }
  .ok { store := r3.1, login := l',
        emailSetup := if connect then none else some (r1.2, l.email_addresses) }

/-- `SocialLogin.connect`: adopt the given local user and save as a
connect operation. -/
def SocialLogin.connect (storeTokens : Bool) (st : Store) (l : SocialLogin)
    (user : User) : Except Err SaveResult :=
  SocialLogin.save storeTokens true st { l with user := user }

/-- An opaque serialized-record blob as produced by the adapter's pluggable
`serialize_instance` collaborator: the instance itself, tagged by model
class so that `deserialize_instance(Model, blob)` can fail on a blob of the
wrong class. -/
inductive Blob where
  | acc : SocialAccount → Blob
  | usr : User → Blob
  | tok : SocialToken → Blob
  | email : EmailAddress → Blob
  deriving DecidableEq, Repr

/-- A value of the serialized mapping: a single blob, a list of blobs
(the email addresses), or the raw state dict. -/
inductive SVal where
  | inst : Blob → SVal
  | instList : List Blob → SVal
  | stateVal : StateMap → SVal
  deriving DecidableEq, Repr

/-- `SocialLogin.serialize`: the dict with keys `account`, `user`, `state`,
`email_addresses`, and `token` only when a token is present (the key is
omitted entirely otherwise — never set to a null value). -/
def SocialLogin.serialize (l : SocialLogin) : List (String × SVal) :=
  let ret := [("account", SVal.inst (Blob.acc l.account)),
              ("user", SVal.inst (Blob.usr l.user)),
              ("state", SVal.stateVal l.state),
              ("email_addresses", SVal.instList (l.email_addresses.map Blob.email))]
  match l.token with
  | some t => ret ++ [("token", SVal.inst (Blob.tok t))]
  | none => ret

/-- `deserialize_instance(EmailAddress, ea)` mapped over the serialized
email-address list; fails on a blob of the wrong class. -/
def deserializeEmails : List Blob → Option (List EmailAddress)
  | [] => some []
  | Blob.email e :: rest => (deserializeEmails rest).map (fun es => e :: es)
  | _ => none

/-- `SocialLogin.deserialize`: rebuild a session from the serialized dict;
the token is reconstructed only when the `token` key is present, and any
blob of the wrong class is a deserialization failure. -/
def SocialLogin.deserialize (data : List (String × SVal)) : Option SocialLogin :=
  match data.lookup "account", data.lookup "user" with
  | some (SVal.inst (Blob.acc account)), some (SVal.inst (Blob.usr user)) =>
    match
      (match data.lookup "token" with
       | some (SVal.inst (Blob.tok t)) => some (some t)
       | some _ => none
       | none => some none) with
    | none => none
    | some token =>
      match data.lookup "email_addresses", data.lookup "state" with
      | some (SVal.instList blobs), some (SVal.stateVal state) =>
        match deserializeEmails blobs with
        | some email_addresses =>
          some { user := user, account := account, token := token,
                 email_addresses := email_addresses, state := state }
        | none => none
      | _, _ => none
  | _, _ => none

/-- The request context visible to the state-stash code: the computed
redirect target and the pass-through request parameters. -/
structure Request where
  next_url : Option String
  params : List (String × String)
  deriving DecidableEq, Repr

/-- The session store, reduced to its single `socialaccount_state` slot:
`some (state, verifier)` when a handshake is stashed, `none` otherwise. -/
abbrev Session := Option (StateMap × String)

/-- Modelled from the spec: `get_request_param` (defined in
`allauth/utils.py`, which is not under `src/`) reads one pass-through
request parameter, falling back to the given default when absent. -/
def get_request_param (req : Request) (param dflt : String) : String :=
  match req.params.lookup param with
  | some v => v
  | none => dflt

/-- Modelled from the spec: `get_next_redirect_url` (defined in
`allauth/account/utils.py`, which is not under `src/`) captures the
post-login redirect target from the request, when present. -/
def get_next_redirect_url (req : Request) : Option String :=
  req.next_url

/-- `SocialLogin.state_from_request`: derive the state dict — `next` only
when a redirect target exists, then `process` (default `login`), `scope`
and `auth_params` (default empty). -/
def SocialLogin.state_from_request (req : Request) : StateMap :=
  let base : StateMap :=
    match get_next_redirect_url req with
    | some n => [("next", n)]
    | none => []
  base ++ [("process", get_request_param req "process" "login"),
           ("scope", get_request_param req "scope" ""),
           ("auth_params", get_request_param req "auth_params" "")]

/-- `SocialLogin.get_redirect_url`: the stashed redirect target. -/
def SocialLogin.get_redirect_url (l : SocialLogin) : Option String :=
  l.state.lookup "next"

/-- `SocialLogin.stash_state`: derive the state from the request, store
(state, verifier) in the session slot — overwriting any previous stash —
and return the verifier.  The verifier itself is produced by the external
`get_random_string()` and is therefore a parameter here. -/
def SocialLogin.stash_state (req : Request) (verifier : String) : String × Session :=
  let state := SocialLogin.state_from_request req
  (verifier, some (state, verifier))

/-- `SocialLogin.unstash_state`: fail with `PermissionDenied` when nothing
is stashed, otherwise pop the slot and return the stored state. -/
def SocialLogin.unstash_state (sess : Session) : Session × Except Err StateMap :=
  match sess with
  | none => (none, .error .accessDenied)
  | some (state, _) => (none, .ok state)

/-- `SocialLogin.verify_and_unstash_state`: fail with `PermissionDenied`
when nothing is stashed; otherwise pop the slot first, then fail with
`PermissionDenied` on a verifier mismatch, or return the stored state.  The
returned session reflects the pop even on the mismatch path, exactly as the
source pops before comparing. -/
def SocialLogin.verify_and_unstash_state (sess : Session) (verifier : String) :
    Session × Except Err StateMap :=
  match sess with
  | none => (none, .error .accessDenied)
  | some (state, verifier2) =>
    if verifier ≠ verifier2 then (none, .error .accessDenied)
    else (none, .ok state)

/-- The invariant of C9: a session's candidate token, when present,
references either no account yet or exactly the session's own candidate
account. -/
def tokenInvariant (l : SocialLogin) : Prop :=
  ∀ t, l.token = some t → t.account = none ∨ t.account = some l.account

/-- The account adopted by a successful `lookup`: the stored row with the
candidate's freshly fetched `extra_data` (the provider's latest snapshot
wins). -/
def adoptedAccount (a0 : SocialAccount) (l : SocialLogin) : SocialAccount :=
  { a0 with extra_data := l.account.extra_data }

/-- The stored token after `lookup` refreshes it from the candidate token:
primary value and expiry taken unconditionally from the candidate, the
secret only when the candidate's is non-empty. -/
def refreshedToken (t0 tok : SocialToken) : SocialToken :=
  { t0 with
    token := tok.token,
    token_secret := if tok.token_secret ≠ "" then tok.token_secret else t0.token_secret,
    expires_at := tok.expires_at }

/-! ### Concrete fixtures for the witnesses -/

/-- A persisted local user owning the stored account. -/
def uAlice : User := { pk := some 1, username := "alice" }

/-- An unsaved candidate user prefilled by the provider. -/
def uBob : User := { pk := none, username := "bob" }

/-- A stored social account for (github, 42), owned by `uAlice`. -/
def accStored : SocialAccount :=
  { pk := some 10, user := uAlice, provider := "github", uid := "42",
    extra_data := [("name", "old")] }

/-- An unsaved candidate account for the same (github, 42) pair with a
freshly fetched profile payload. -/
def accCand : SocialAccount :=
  { pk := none, user := uBob, provider := "github", uid := "42",
    extra_data := [("name", "new")] }

/-- An unsaved candidate account for (github, 43), matching nothing. -/
def accMiss : SocialAccount :=
  { pk := none, user := uBob, provider := "github", uid := "43",
    extra_data := [("name", "new")] }

/-- A stored token for (`accStored`, app 7) with refresh secret `r1`. -/
def tokStored : SocialToken :=
  { pk := some 20, app := 7, account := some accStored, token := "a1",
    token_secret := "r1", expires_at := some 100 }

/-- An unsaved candidate token for app 7 with primary value `a2` and an
empty refresh secret. -/
def tokCand : SocialToken :=
  { pk := none, app := 7, account := none, token := "a2",
    token_secret := "", expires_at := some 200 }

/-- The sample store holding `uAlice`, `accStored` and `tokStored`. -/
def st0 : Store :=
  { users := [uAlice], accounts := [accStored], tokens := [tokStored], nextPk := 30 }

/-- A candidate session for (github, 42) without a token. -/
def loginCand : SocialLogin :=
  { user := uBob, account := accCand, token := none,
    email_addresses := [], state := [] }

/-- A candidate session for (github, 42) carrying `tokCand`. -/
def loginTok : SocialLogin :=
  { user := uBob, account := accCand, token := some tokCand,
    email_addresses := [], state := [] }

/-- A candidate session for (github, 43), matching nothing. -/
def loginMiss : SocialLogin :=
  { user := uBob, account := accMiss, token := none,
    email_addresses := [], state := [] }

/-- An email address as supplied by the provider. -/
def eaProvider : EmailAddress := { email := "bob@example.org", verified := true }

/-! ### Helper lemmas -/

theorem deserializeEmails_map (es : List EmailAddress) :
    deserializeEmails (es.map Blob.email) = some es := by
  induction es with
  | nil => rfl
  | cons e rest ih => simp [deserializeEmails, ih]

theorem Store.saveToken_accounts (st : Store) (t : SocialToken) :
    (st.saveToken t).1.accounts = st.accounts := by
  cases h : t.pk with
  | none => simp [Store.saveToken, h]
  | some k =>
    simp only [Store.saveToken, h]
    split <;> rfl

theorem Store.saveToken_users (st : Store) (t : SocialToken) :
    (st.saveToken t).1.users = st.users := by
  cases h : t.pk with
  | none => simp [Store.saveToken, h]
  | some k =>
    simp only [Store.saveToken, h]
    split <;> rfl

theorem Store.saveAccount_tokens (st : Store) (a : SocialAccount) :
    (st.saveAccount a).1.tokens = st.tokens := by
  cases h : a.pk with
  | none => simp [Store.saveAccount, h]
  | some k =>
    simp only [Store.saveAccount, h]
    split <;> rfl

theorem Store.saveAccount_users (st : Store) (a : SocialAccount) :
    (st.saveAccount a).1.users = st.users := by
  cases h : a.pk with
  | none => simp [Store.saveAccount, h]
  | some k =>
    simp only [Store.saveAccount, h]
    split <;> rfl

theorem Store.saveUser_accounts (st : Store) (u : User) :
    (st.saveUser u).1.accounts = st.accounts := by
  cases h : u.pk with
  | none => simp [Store.saveUser, h]
  | some k =>
    simp only [Store.saveUser, h]
    split <;> rfl

theorem Store.saveUser_tokens (st : Store) (u : User) :
    (st.saveUser u).1.tokens = st.tokens := by
  cases h : u.pk with
  | none => simp [Store.saveUser, h]
  | some k =>
    simp only [Store.saveUser, h]
    split <;> rfl

theorem Store.saveAccount_update (st : Store) (a : SocialAccount) (k : Nat)
    (hk : a.pk = some k)
    (hany : st.accounts.any (fun x => x.pk == a.pk) = true) :
    st.saveAccount a =
      ({ st with accounts := st.accounts.map (fun x => if x.pk == a.pk then a else x) },
       a) := by
  simp only [Store.saveAccount, hk] at hany ⊢
  simp [hany]

theorem Store.saveToken_update (st : Store) (t : SocialToken) (k : Nat)
    (hk : t.pk = some k)
    (hany : st.tokens.any (fun x => x.pk == t.pk) = true) :
    st.saveToken t =
      ({ st with tokens := st.tokens.map (fun x => if x.pk == t.pk then t else x) },
       t) := by
  simp only [Store.saveToken, hk] at hany ⊢
  simp [hany]

theorem Store.getToken_saveAccount (st : Store) (a : SocialAccount)
    (accountPk : Option Nat) (app : Nat) :
    (st.saveAccount a).1.getToken accountPk app = st.getToken accountPk app := by
  simp [Store.getToken, Store.saveAccount_tokens]

theorem Store.saveUser_mem (st : Store) (u : User) :
    (st.saveUser u).2 ∈ (st.saveUser u).1.users := by
  cases h : u.pk with
  | none => simp [Store.saveUser, h]
  | some k =>
    simp only [Store.saveUser, h]
    split
    · rename_i hany
      obtain ⟨x, hx, hxe⟩ := List.any_eq_true.mp hany
      exact List.mem_map.mpr ⟨x, hx, by simp [hxe]⟩
    · simp

theorem Store.saveAccount_mem (st : Store) (a : SocialAccount) :
    (st.saveAccount a).2 ∈ (st.saveAccount a).1.accounts := by
  cases h : a.pk with
  | none => simp [Store.saveAccount, h]
  | some k =>
    simp only [Store.saveAccount, h]
    split
    · rename_i hany
      obtain ⟨x, hx, hxe⟩ := List.any_eq_true.mp hany
      exact List.mem_map.mpr ⟨x, hx, by simp [hxe]⟩
    · simp

theorem Store.saveToken_mem (st : Store) (t : SocialToken) :
    (st.saveToken t).2 ∈ (st.saveToken t).1.tokens := by
  cases h : t.pk with
  | none => simp [Store.saveToken, h]
  | some k =>
    simp only [Store.saveToken, h]
    split
    · rename_i hany
      obtain ⟨x, hx, hxe⟩ := List.any_eq_true.mp hany
      exact List.mem_map.mpr ⟨x, hx, by simp [hxe]⟩
    · simp

theorem Store.saveToken_snd_account (st : Store) (t : SocialToken) :
    (st.saveToken t).2.account = t.account := by
  cases h : t.pk with
  | none => simp [Store.saveToken, h]
  | some k =>
    simp only [Store.saveToken, h]
    split <;> rfl

theorem Store.saveAccount_insert (st : Store) (a : SocialAccount) (h : a.pk = none) :
    st.saveAccount a =
      ({ st with accounts := st.accounts ++ [{ a with pk := some st.nextPk }],
                 nextPk := st.nextPk + 1 },
       { a with pk := some st.nextPk }) := by
  simp [Store.saveAccount, h]

/-- Shared characterization of `SocialLogin.save` on a non-existing
session: it completes, the saved user is adopted, the account is bound to
that user and persisted, the session becomes existing, the token (when
stored) is bound to the saved account and persisted, and the email-setup
call is skipped exactly on `connect`. -/
theorem SocialLogin.save_ok (storeTokens connect : Bool) (st : Store) (l : SocialLogin)
    (hnew : l.is_existing = false) :
    ∃ r, SocialLogin.save storeTokens connect st l = .ok r ∧
      r.login.user = (st.saveUser l.user).2 ∧
      r.login.account.user = r.login.user ∧
      r.login.is_existing = true ∧
      r.login.user ∈ r.store.users ∧
      r.login.account ∈ r.store.accounts ∧
      (∀ tok, l.token = some tok → storeTokens = true →
        ∃ t', r.login.token = some t' ∧ t'.account = some r.login.account ∧
          t' ∈ r.store.tokens) ∧
      r.emailSetup = (if connect then none else some (r.login.user, l.email_addresses)) := by
  have hapk : l.account.pk = none := by
    cases h : l.account.pk with
    | none => rfl
    | some k => simp [SocialLogin.is_existing, h] at hnew
  have hacc : ∀ u : User,
      ({ l.account with user := u } : SocialAccount).pk = none := fun _ => hapk
  cases htk : l.token with
  | none =>
    refine
      ⟨{ store :=
           ((st.saveUser l.user).1.saveAccount
             { l.account with user := (st.saveUser l.user).2 }).1,
         login :=
           { l with
             user := (st.saveUser l.user).2,
             account :=
               ((st.saveUser l.user).1.saveAccount
                 { l.account with user := (st.saveUser l.user).2 }).2,
             token := none },
         emailSetup :=
           if connect then none
           else some ((st.saveUser l.user).2, l.email_addresses) },
       ?_, rfl, ?_, ?_, ?_, ?_, ?_, rfl⟩
    · simp [SocialLogin.save, hnew, htk]
    · rw [Store.saveAccount_insert _ _ (hacc (st.saveUser l.user).2)]
    · rw [Store.saveAccount_insert _ _ (hacc (st.saveUser l.user).2)]
      simp [SocialLogin.is_existing]
    · rw [Store.saveAccount_users]
      exact Store.saveUser_mem st l.user
    · exact Store.saveAccount_mem _ _
    · intro tok h
      simp [htk] at h
  | some tok =>
    cases hst : storeTokens with
    | false =>
      refine
        ⟨{ store :=
             ((st.saveUser l.user).1.saveAccount
               { l.account with user := (st.saveUser l.user).2 }).1,
           login :=
             { l with
               user := (st.saveUser l.user).2,
               account :=
                 ((st.saveUser l.user).1.saveAccount
                   { l.account with user := (st.saveUser l.user).2 }).2,
               token := some tok },
           emailSetup :=
             if connect then none
             else some ((st.saveUser l.user).2, l.email_addresses) },
         ?_, rfl, ?_, ?_, ?_, ?_, ?_, rfl⟩
      · simp [SocialLogin.save, hnew, htk]
      · rw [Store.saveAccount_insert _ _ (hacc (st.saveUser l.user).2)]
      · rw [Store.saveAccount_insert _ _ (hacc (st.saveUser l.user).2)]
        simp [SocialLogin.is_existing]
      · rw [Store.saveAccount_users]
        exact Store.saveUser_mem st l.user
      · exact Store.saveAccount_mem _ _
      · intro tok' h1 h2
        cases h2
    | true =>
      refine
        ⟨{ store :=
             (((st.saveUser l.user).1.saveAccount
                 { l.account with user := (st.saveUser l.user).2 }).1.saveToken
               { tok with
                 account :=
                   some ((st.saveUser l.user).1.saveAccount
                     { l.account with user := (st.saveUser l.user).2 }).2 }).1,
           login :=
             { l with
               user := (st.saveUser l.user).2,
               account :=
                 ((st.saveUser l.user).1.saveAccount
                   { l.account with user := (st.saveUser l.user).2 }).2,
               token :=
                 some (((st.saveUser l.user).1.saveAccount
                     { l.account with user := (st.saveUser l.user).2 }).1.saveToken
                   { tok with
                     account :=
                       some ((st.saveUser l.user).1.saveAccount
                         { l.account with user := (st.saveUser l.user).2 }).2 }).2 },
           emailSetup :=
             if connect then none
             else some ((st.saveUser l.user).2, l.email_addresses) },
         ?_, rfl, ?_, ?_, ?_, ?_, ?_, rfl⟩
      · simp [SocialLogin.save, hnew, htk]
      · rw [Store.saveAccount_insert _ _ (hacc (st.saveUser l.user).2)]
      · rw [Store.saveAccount_insert _ _ (hacc (st.saveUser l.user).2)]
        simp [SocialLogin.is_existing]
      · rw [Store.saveToken_users, Store.saveAccount_users]
        exact Store.saveUser_mem st l.user
      · rw [Store.saveToken_accounts]
        exact Store.saveAccount_mem _ _
      · intro tok' h1 h2
        exact ⟨_, rfl, by rw [Store.saveToken_snd_account], Store.saveToken_mem _ _⟩

/-! ### Claim theorems -/

/-- C3: for every login session `l`, deserializing its serialized form
reconstructs `l` exactly (hence field-wise equality on account, user,
email-address list, state and token presence), and the serialized mapping
carries a `token` key exactly when `l` has a token — the key maps to the
token's blob when present and is absent otherwise, never a null value. -/
theorem C3_serialize_roundtrip (l : SocialLogin) :
    SocialLogin.deserialize (SocialLogin.serialize l) = some l ∧
    (SocialLogin.serialize l).lookup "token" =
      l.token.map (fun t => SVal.inst (Blob.tok t)) := by
  obtain ⟨u, a, t, es, s⟩ := l
  cases t <;>
    simp [SocialLogin.serialize, SocialLogin.deserialize, List.lookup,
      deserializeEmails_map]

/-- C7: the verifier returned by `stash_state` is the one stored; `unstash`
after `stash` returns exactly the state derived from the request at stash
time and empties the slot; `unstash` with nothing stashed fails with the
AccessDenied-class error. -/
theorem C7_stash_unstash (req : Request) (v : String) :
    (SocialLogin.stash_state req v).1 = v ∧
    SocialLogin.unstash_state (SocialLogin.stash_state req v).2 =
      (none, .ok (SocialLogin.state_from_request req)) ∧
    SocialLogin.unstash_state (none : Session) = (none, .error .accessDenied) :=
  ⟨rfl, rfl, rfl⟩

/-- C4: `verify_and_unstash_state` fails with AccessDenied when nothing is
stashed and when the verifier mismatches; the slot is left empty after any
call (the entry is consumed exactly once, regardless of outcome), so every
subsequent call — whatever verifier it supplies — also fails with
AccessDenied; a matching verifier on a stashed entry returns the state. -/
theorem C4_verify_and_unstash (sess : Session) (v w : String) :
    (SocialLogin.verify_and_unstash_state (none : Session) v
      = (none, .error .accessDenied)) ∧
    (∀ s v2, sess = some (s, v2) → v ≠ v2 →
      SocialLogin.verify_and_unstash_state sess v = (none, .error .accessDenied)) ∧
    ((SocialLogin.verify_and_unstash_state sess v).1 = none) ∧
    ((SocialLogin.verify_and_unstash_state
        (SocialLogin.verify_and_unstash_state sess v).1 w).2
      = .error .accessDenied) ∧
    (∀ s v2, sess = some (s, v2) → v = v2 →
      SocialLogin.verify_and_unstash_state sess v = (none, .ok s)) := by
  have hpop : (SocialLogin.verify_and_unstash_state sess v).1 = none := by
    cases sess with
    | none => rfl
    | some p =>
      by_cases hv : v = p.2 <;>
        simp [SocialLogin.verify_and_unstash_state, hv]
  refine ⟨rfl, ?_, hpop, ?_, ?_⟩
  · intro s v2 hs hv
    subst hs
    simp [SocialLogin.verify_and_unstash_state, hv]
  · rw [hpop]
    rfl
  · intro s v2 hs hv
    subst hs
    simp [SocialLogin.verify_and_unstash_state, hv]

/-- Witness for C4 at a concrete session: a stash holding verifier `v1`
rejects the wrong verifier while consuming the entry, and the subsequent
call with the originally correct `v1` also fails. -/
theorem C4_witness :
    SocialLogin.verify_and_unstash_state (some ([("next", "/x")], "v1")) "wrong"
      = (none, .error .accessDenied) ∧
    (SocialLogin.verify_and_unstash_state
        (SocialLogin.verify_and_unstash_state
          (some ([("next", "/x")], "v1")) "wrong").1 "v1").2
      = .error .accessDenied :=
  ⟨(C4_verify_and_unstash (some ([("next", "/x")], "v1")) "wrong" "v1").2.1
      [("next", "/x")] "v1" rfl (by decide),
   (C4_verify_and_unstash (some ([("next", "/x")], "v1")) "wrong" "v1").2.2.2.1⟩

/-- C6: when the candidate (provider, uid) pair of a non-existing session
matches no stored account, `lookup` returns normally with the store and the
session both exactly unchanged — no exception, no store writes, candidate
account, user and token untouched, `is_existing` still false. -/
theorem C6_lookup_no_match (storeTokens : Bool) (st : Store) (l : SocialLogin)
    (hnew : l.is_existing = false)
    (hfind : st.getAccount l.account.provider l.account.uid = none) :
    SocialLogin.lookup storeTokens st l = .ok (st, l) ∧
    l.is_existing = false := by
  refine ⟨?_, hnew⟩
  simp [SocialLogin.lookup, hnew, hfind]

/-- Witness for C6: the concrete session for (github, 43) misses in the
sample store and is returned unchanged. -/
theorem C6_witness :
    loginMiss.is_existing = false ∧
    SocialLogin.lookup true st0 loginMiss = .ok (st0, loginMiss) :=
  ⟨by decide, (C6_lookup_no_match true st0 loginMiss (by decide) (by decide)).1⟩

/-- C9: every session the constructor accepts satisfies the token
invariant (the candidate token, if present, references no account or
exactly the session's candidate account); any constructor failure is the
programming-error class, distinct from AccessDenied; and a token pre-bound
to a different account is rejected with exactly that error. -/
theorem C9_init_token_invariant (user : User) (account : SocialAccount)
    (token : Option SocialToken) (emails : List EmailAddress) :
    (∀ l, SocialLogin.init user account token emails = .ok l → tokenInvariant l) ∧
    (∀ e, SocialLogin.init user account token emails = .error e →
      e = .assertionError ∧ e ≠ .accessDenied) ∧
    (∀ t, token = some t → t.account ≠ none → t.account ≠ some account →
      SocialLogin.init user account token emails = .error .assertionError) := by
  refine ⟨?_, ?_, ?_⟩
  · intro l hl t ht
    cases token with
    | none =>
      simp only [SocialLogin.init, Except.ok.injEq] at hl
      subst hl
      simp at ht
    | some t0 =>
      simp only [SocialLogin.init] at hl
      split at hl
      · rename_i hcond
        simp only [Except.ok.injEq] at hl
        subst hl
        simp only [Option.some.injEq] at ht
        subst ht
        exact hcond
      · simp at hl
  · intro e he
    cases token with
    | none => simp [SocialLogin.init] at he
    | some t0 =>
      simp only [SocialLogin.init] at he
      split at he
      · simp at he
      · simp only [Except.error.injEq] at he
        subst he
        exact ⟨rfl, by simp⟩
  · intro t ht hne1 hne2
    subst ht
    have hcond : ¬ (t.account = none ∨ t.account = some account) := by
      rintro (h | h)
      · exact hne1 h
      · exact hne2 h
    simp [SocialLogin.init, hcond]

/-- Witness for C9: building a session whose token is pre-bound to the
stored account while the candidate account differs fails with the
programming-error class, and a well-formed construction satisfies the
token invariant. -/
theorem C9_witness :
    SocialLogin.init uBob accCand (some { tokCand with account := some accStored }) []
      = .error .assertionError ∧
    tokenInvariant { user := uBob, account := accCand,
                     token := some { tokCand with account := some accCand },
                     email_addresses := [], state := [] } :=
  ⟨(C9_init_token_invariant uBob accCand
      (some { tokCand with account := some accStored }) []).2.2
      { tokCand with account := some accStored } rfl (by decide) (by decide),
   (C9_init_token_invariant uBob accCand
      (some { tokCand with account := some accCand }) []).1 _ (by
        simp [SocialLogin.init])⟩

/-- C10: reconciling a non-existing session that matches a stored account,
with token persistence enabled and a candidate token that was already
persisted (has a store-assigned primary key), is a fatal assertion
failure. -/
theorem C10_lookup_saved_candidate_token (st : Store) (l : SocialLogin)
    (a0 : SocialAccount) (tok : SocialToken)
    (hnew : l.is_existing = false)
    (hfind : st.getAccount l.account.provider l.account.uid = some a0)
    (htok : l.token = some tok)
    (hpk : tok.pk.isSome = true) :
    SocialLogin.lookup true st l = .error .assertionError := by
  simp [SocialLogin.lookup, hnew, hfind, htok, hpk]

/-- Witness for C10: the candidate session carrying an already-persisted
copy of the candidate token hits the assertion during lookup. -/
theorem C10_witness :
    SocialLogin.lookup true st0
      { loginTok with token := some { tokCand with pk := some 21 } }
      = .error .assertionError :=
  C10_lookup_saved_candidate_token st0
    { loginTok with token := some { tokCand with pk := some 21 } }
    accStored { tokCand with pk := some 21 } (by decide) (by decide) rfl rfl

/-- C1: when a non-existing session's candidate (provider, uid) pair
matches a stored account (and the session is otherwise in lookup's
supported domain: any candidate token is still unsaved, per C10), `lookup`
replaces the candidate account with the stored one carrying the
candidate's fresh `extra_data`, persists that update to the store, rebinds
the session user to the stored account's owner, and leaves the session
existing. -/
theorem C1_lookup_match (storeTokens : Bool) (st : Store) (l : SocialLogin)
    (a0 : SocialAccount)
    (hnew : l.is_existing = false)
    (hfind : st.getAccount l.account.provider l.account.uid = some a0)
    (hpk : a0.pk.isSome = true)
    (htok : ∀ t, l.token = some t → t.pk = none) :
    ∃ st' l', SocialLogin.lookup storeTokens st l = .ok (st', l') ∧
      l'.account = adoptedAccount a0 l ∧
      l'.user = a0.user ∧
      l'.is_existing = true ∧
      st'.accounts = st.accounts.map
        (fun x => if x.pk == a0.pk then adoptedAccount a0 l else x) := by
  obtain ⟨k, hk⟩ := Option.isSome_iff_exists.mp hpk
  have hfind' : st.accounts.find?
      (fun x => x.provider == l.account.provider && x.uid == l.account.uid)
      = some a0 := hfind
  have hmem : a0 ∈ st.accounts := List.mem_of_find?_eq_some hfind'
  have hk' : (adoptedAccount a0 l).pk = some k := by simpa [adoptedAccount] using hk
  have hany : st.accounts.any (fun x => x.pk == (adoptedAccount a0 l).pk) = true :=
    List.any_eq_true.mpr ⟨a0, hmem, by simp [adoptedAccount]⟩
  have hsa := Store.saveAccount_update st (adoptedAccount a0 l) k hk' hany
  have haccounts : (st.saveAccount (adoptedAccount a0 l)).1.accounts
      = st.accounts.map (fun x => if x.pk == a0.pk then adoptedAccount a0 l else x) := by
    rw [hsa]
    simp [adoptedAccount]
  cases storeTokens with
  | false =>
    refine ⟨(st.saveAccount (adoptedAccount a0 l)).1,
      { l with account := adoptedAccount a0 l, user := (adoptedAccount a0 l).user },
      ?_, rfl, ?_, ?_, haccounts⟩
    · simp [SocialLogin.lookup, hnew, hfind, adoptedAccount]
    · simp [adoptedAccount]
    · simp [SocialLogin.is_existing, adoptedAccount, hk]
  | true =>
    cases htk : l.token with
    | none =>
      refine ⟨(st.saveAccount (adoptedAccount a0 l)).1,
        { l with account := adoptedAccount a0 l, user := (adoptedAccount a0 l).user },
        ?_, rfl, ?_, ?_, haccounts⟩
      · simp [SocialLogin.lookup, hnew, hfind, htk, adoptedAccount]
      · simp [adoptedAccount]
      · simp [SocialLogin.is_existing, adoptedAccount, hk]
    | some tok =>
      have hpk0 : tok.pk = none := htok tok htk
      cases hgt : st.getToken a0.pk tok.app with
      | some t0 =>
        refine ⟨((st.saveAccount (adoptedAccount a0 l)).1.saveToken
            (refreshedToken t0 tok)).1,
          { l with account := adoptedAccount a0 l,
                   user := (adoptedAccount a0 l).user,
                   token := some (refreshedToken t0 tok) }, ?_, rfl, ?_, ?_, ?_⟩
        · simp [SocialLogin.lookup, hnew, hfind, htk, hpk0, adoptedAccount,
            refreshedToken, Store.getToken_saveAccount, hgt]
        · simp [adoptedAccount]
        · simp [SocialLogin.is_existing, adoptedAccount, hk]
        · rw [Store.saveToken_accounts]
          exact haccounts
      | none =>
        refine ⟨((st.saveAccount (adoptedAccount a0 l)).1.saveToken
            { tok with account := some (adoptedAccount a0 l) }).1,
          { l with account := adoptedAccount a0 l,
                   user := (adoptedAccount a0 l).user,
                   token := some ((st.saveAccount (adoptedAccount a0 l)).1.saveToken
                     { tok with account := some (adoptedAccount a0 l) }).2 },
          ?_, rfl, ?_, ?_, ?_⟩
        · simp [SocialLogin.lookup, hnew, hfind, htk, hpk0, adoptedAccount,
            Store.getToken_saveAccount, hgt]
        · simp [adoptedAccount]
        · simp [SocialLogin.is_existing, adoptedAccount, hk]
        · rw [Store.saveToken_accounts]
          exact haccounts

/-- Witness for C1: reconciling the concrete candidate session for
(github, 42) against the sample store adopts the stored account with the
fresh payload, rebinds the user to `uAlice`, and persists the update. -/
theorem C1_witness :
    loginCand.is_existing = false ∧
    st0.getAccount loginCand.account.provider loginCand.account.uid = some accStored ∧
    ∃ st' l', SocialLogin.lookup true st0 loginCand = .ok (st', l') ∧
      l'.account = adoptedAccount accStored loginCand ∧
      l'.user = accStored.user ∧
      l'.is_existing = true ∧
      st'.accounts = st0.accounts.map
        (fun x => if x.pk == accStored.pk then adoptedAccount accStored loginCand else x) :=
  ⟨by decide, by decide,
   C1_lookup_match true st0 loginCand accStored (by decide) (by decide) (by decide)
     (fun t h => nomatch h)⟩

/-- C2: with token persistence on, a present unsaved candidate token and a
stored token for the same (account, app) pair, `lookup` refreshes the
stored token — primary value and expiry unconditionally from the
candidate, the secondary/refresh value only when the candidate's is
non-empty, otherwise retained — persists it, and the session adopts the
stored (refreshed) token. -/
theorem C2_token_refresh (st : Store) (l : SocialLogin) (a0 : SocialAccount)
    (tok t0 : SocialToken) (k : Nat)
    (hnew : l.is_existing = false)
    (hfind : st.getAccount l.account.provider l.account.uid = some a0)
    (hpk : a0.pk.isSome = true)
    (htk : l.token = some tok)
    (hpk0 : tok.pk = none)
    (hgt : st.getToken a0.pk tok.app = some t0)
    (hkt : t0.pk = some k) :
    ∃ st' l', SocialLogin.lookup true st l = .ok (st', l') ∧
      l'.token = some (refreshedToken t0 tok) ∧
      (refreshedToken t0 tok).token = tok.token ∧
      (refreshedToken t0 tok).expires_at = tok.expires_at ∧
      (refreshedToken t0 tok).token_secret =
        (if tok.token_secret = "" then t0.token_secret else tok.token_secret) ∧
      (refreshedToken t0 tok).pk = t0.pk ∧
      st'.tokens = st.tokens.map
        (fun x => if x.pk == t0.pk then refreshedToken t0 tok else x) := by
  obtain ⟨ka, hka⟩ := Option.isSome_iff_exists.mp hpk
  have hfind' : st.accounts.find?
      (fun x => x.provider == l.account.provider && x.uid == l.account.uid)
      = some a0 := hfind
  have hmem : a0 ∈ st.accounts := List.mem_of_find?_eq_some hfind'
  have hk' : (adoptedAccount a0 l).pk = some ka := by simpa [adoptedAccount] using hka
  have hany : st.accounts.any (fun x => x.pk == (adoptedAccount a0 l).pk) = true :=
    List.any_eq_true.mpr ⟨a0, hmem, by simp [adoptedAccount]⟩
  have hsa := Store.saveAccount_update st (adoptedAccount a0 l) ka hk' hany
  have hgt' : st.tokens.find?
      (fun x => x.accountId == a0.pk && x.app == tok.app) = some t0 := hgt
  have hmemT : t0 ∈ st.tokens := List.mem_of_find?_eq_some hgt'
  have hkT : (refreshedToken t0 tok).pk = some k := by simpa [refreshedToken] using hkt
  have hanyT : (st.saveAccount (adoptedAccount a0 l)).1.tokens.any
      (fun x => x.pk == (refreshedToken t0 tok).pk) = true := by
    rw [Store.saveAccount_tokens]
    exact List.any_eq_true.mpr ⟨t0, hmemT, by simp [refreshedToken]⟩
  have hst := Store.saveToken_update (st.saveAccount (adoptedAccount a0 l)).1
    (refreshedToken t0 tok) k hkT hanyT
  refine ⟨((st.saveAccount (adoptedAccount a0 l)).1.saveToken
      (refreshedToken t0 tok)).1,
    { l with account := adoptedAccount a0 l,
             user := (adoptedAccount a0 l).user,
             token := some (refreshedToken t0 tok) }, ?_, rfl, rfl, rfl, ?_, rfl, ?_⟩
  · simp [SocialLogin.lookup, hnew, hfind, htk, hpk0, adoptedAccount,
      refreshedToken, Store.getToken_saveAccount, hgt]
  · by_cases h : tok.token_secret = "" <;> simp [refreshedToken, h]
  · rw [hst]
    simp [Store.saveAccount_tokens, refreshedToken]

/-- Witness for C2: refreshing `tokStored` (secret `r1`) from the candidate
token with primary value `a2` and empty secret keeps the stored secret and
adopts primary value `a2`, matching the spec's example. -/
theorem C2_witness :
    loginTok.token = some tokCand ∧
    st0.getToken accStored.pk tokCand.app = some tokStored ∧
    refreshedToken tokStored tokCand =
      { pk := some 20, app := 7, account := some accStored, token := "a2",
        token_secret := "r1", expires_at := some 200 } ∧
    ∃ st' l', SocialLogin.lookup true st0 loginTok = .ok (st', l') ∧
      l'.token = some (refreshedToken tokStored tokCand) ∧
      (refreshedToken tokStored tokCand).token = tokCand.token ∧
      (refreshedToken tokStored tokCand).expires_at = tokCand.expires_at ∧
      (refreshedToken tokStored tokCand).token_secret =
        (if tokCand.token_secret = "" then tokStored.token_secret
         else tokCand.token_secret) ∧
      (refreshedToken tokStored tokCand).pk = tokStored.pk ∧
      st'.tokens = st0.tokens.map
        (fun x => if x.pk == tokStored.pk then refreshedToken tokStored tokCand else x) :=
  ⟨rfl, by decide, by decide,
   C2_token_refresh st0 loginTok accStored tokCand tokStored 20 (by decide) (by decide)
     (by decide) rfl rfl (by decide) rfl⟩

/-- C5: committing an already-existing session fails with the
programming-error (assertion) class — never a silent no-op — which is
distinct from both AccessDenied and NotFound; on a non-existing session,
save completes, persisting the user, the account bound to that user, and
the token when storage is enabled and one is present, and afterwards the
session is existing. -/
theorem C5_save_commit (storeTokens connect : Bool) (st : Store) (l : SocialLogin) :
    (l.is_existing = true →
      SocialLogin.save storeTokens connect st l = .error .assertionError ∧
      Err.assertionError ≠ Err.accessDenied ∧
      Err.assertionError ≠ Err.notFound) ∧
    (l.is_existing = false →
      ∃ r, SocialLogin.save storeTokens connect st l = .ok r ∧
        r.login.is_existing = true ∧
        r.login.account.user = r.login.user ∧
        r.login.user ∈ r.store.users ∧
        r.login.account ∈ r.store.accounts ∧
        (∀ tok, l.token = some tok → storeTokens = true →
          ∃ t', r.login.token = some t' ∧ t'.account = some r.login.account ∧
            t' ∈ r.store.tokens)) := by
  constructor
  · intro h
    exact ⟨by simp [SocialLogin.save, h], by decide, by decide⟩
  · intro h
    obtain ⟨r, hok, huser, haccuser, hex, humem, hamem, htokc, hemail⟩ :=
      SocialLogin.save_ok storeTokens connect st l h
    exact ⟨r, hok, hex, haccuser, humem, hamem, htokc⟩

/-- Witness for C5: saving the concrete session whose account is the
already-stored one fails with the assertion error, while saving the fresh
candidate session completes and leaves it existing. -/
theorem C5_witness :
    ({ loginCand with account := accStored } : SocialLogin).is_existing = true ∧
    SocialLogin.save true false st0 { loginCand with account := accStored }
      = .error .assertionError ∧
    (∃ r, SocialLogin.save true false st0 loginCand = .ok r ∧
      r.login.is_existing = true) := by
  refine ⟨by decide, ?_, ?_⟩
  · exact ((C5_save_commit true false st0
      { loginCand with account := accStored }).1 (by decide)).1
  · obtain ⟨r, hok, hex, -⟩ := (C5_save_commit true false st0 loginCand).2 (by decide)
    exact ⟨r, hok, hex⟩

/-- C8: saving with `connect` persists user, account and (when enabled and
present) token but makes no email-setup call at all, while saving without
`connect` delegates email setup to the external collaborator with the
session's candidate email addresses. -/
theorem C8_connect_email_noop (storeTokens : Bool) (st : Store) (l : SocialLogin)
    (hnew : l.is_existing = false) :
    (∃ r, SocialLogin.save storeTokens true st l = .ok r ∧
      r.emailSetup = none ∧
      r.login.user ∈ r.store.users ∧
      r.login.account ∈ r.store.accounts ∧
      (∀ tok, l.token = some tok → storeTokens = true →
        ∃ t', r.login.token = some t' ∧ t' ∈ r.store.tokens)) ∧
    (∃ r, SocialLogin.save storeTokens false st l = .ok r ∧
      r.emailSetup = some (r.login.user, l.email_addresses)) := by
  constructor
  · obtain ⟨r, hok, -, -, -, humem, hamem, htokc, hemail⟩ :=
      SocialLogin.save_ok storeTokens true st l hnew
    exact ⟨r, hok, by simpa using hemail, humem, hamem,
      fun tok h1 h2 => (htokc tok h1 h2).imp (fun t' ht => ⟨ht.1, ht.2.2⟩)⟩
  · obtain ⟨r, hok, -, -, -, -, -, -, hemail⟩ :=
      SocialLogin.save_ok storeTokens false st l hnew
    exact ⟨r, hok, by simpa using hemail⟩

/-- Witness for C8: saving the candidate session carrying one provider
email with `connect` makes no email-setup call, and saving it without
`connect` delegates exactly that email list. -/
theorem C8_witness :
    (∃ r, SocialLogin.save true true st0
        { loginCand with email_addresses := [eaProvider] } = .ok r ∧
      r.emailSetup = none) ∧
    (∃ r, SocialLogin.save true false st0
        { loginCand with email_addresses := [eaProvider] } = .ok r ∧
      r.emailSetup = some (r.login.user, [eaProvider])) := by
  obtain ⟨⟨r1, hok1, he1, -⟩, ⟨r2, hok2, he2⟩⟩ :=
    C8_connect_email_noop true st0
      { loginCand with email_addresses := [eaProvider] } (by decide)
  exact ⟨⟨r1, hok1, he1⟩, ⟨r2, hok2, he2⟩⟩

end Allauth
